import Mathlib

/-! yaft on the reMarkable: flag types, constant tables and host glue

A shallow embedding of the parts of the repository that the verified
properties talk about:

* `libs/libYaft/yaft.h`: the enumerations `misc`, `char_attr`, `term_mode`,
  `esc_state`, their overloaded bitwise operators, and the constant tables
  `attr_mask` and `bit_mask`;
* `libs/rMlib/Device.cpp`: `readFile`, `getDeviceType`, `getInputPaths`,
  `getInputTransform` and the two path tables;
* `apps/yaft2/main.cpp`: `fork_and_exec` and the pty callback registered by
  `YaftState::init`.

Conventions.  A value of `int` or of an `int`-backed enumeration is
represented by its 32-bit two's-complement bit pattern, a natural number;
`&`, `|` are `&&&`, `|||` on the patterns and `~` is `int_not`.  Narrowing
conversions are written with an explicit remainder.  Calls into the
operating system are inputs of the embedded function.
-/

namespace Yaft

/-! ## Machine integers -/

/-- Bitwise complement `~x` of a 32-bit `int`, on bit patterns. -/
def int_not (x : Nat) : Nat := 2 ^ 32 - 1 - x % 2 ^ 32

/-- Conversion of an `int` to an `unsigned short` (the fields of `struct winsize`). -/
def to_u16 (x : Int) : Nat := (x % 65536).toNat

/-- Conversion of a signed `ssize_t` to `size_t` on a target whose `size_t`
has `w` bits. -/
def to_size_t (w : Nat) (x : Int) : Nat := (x % 2 ^ w).toNat

/-! ## `yaft.h`: `enum misc` -/

/-- Number of charsets of DRCS (according to DRCSMMv1). -/
def DRCS_CHARSETS : Nat := 63

/-- Number of glyphs of each DRCS charset. -/
def GLYPHS_PER_CHARSET : Nat := 96

/-- Size of `terminal_t::drcs`, declared as `struct glyph_t drcs[DRCS_CHARS]`. -/
def DRCS_CHARS : Nat := DRCS_CHARSETS * GLYPHS_PER_CHARSET

/-! ## `yaft.h`: `enum char_attr` and its operators -/

def ATTR_RESET : Nat := 0
/-- Brighten foreground. -/
def ATTR_BOLD : Nat := 1
def ATTR_UNDERLINE : Nat := 4
/-- Brighten background. -/
def ATTR_BLINK : Nat := 5
def ATTR_REVERSE : Nat := 7

/-- The four named attributes other than `ATTR_RESET`. -/
def named_attrs : List Nat := [ ATTR_BOLD, ATTR_UNDERLINE, ATTR_BLINK, ATTR_REVERSE]

/-- The operator `|=` on `char_attr`: the new value of `m` is `(char_attr)(m | o)`. -/
def char_attr_or_assign (m o : Nat) : Nat := m ||| o

/-- The operator `|` on `char_attr`: `(char_attr)((int)m | (int)o)`. -/
def char_attr_or (m o : Nat) : Nat := m ||| o

/-- The operator `&=` on `char_attr`: the new value of `m` is `(char_attr)(m & o)`. -/
def char_attr_and_assign (m o : Nat) : Nat := m &&& o

/-- The operator `&` on `char_attr`: `(char_attr)((int)m & (int)o)`. -/
def char_attr_and (m o : Nat) : Nat := m &&& o

/-- The operator `~` on `char_attr`: `(char_attr)(~(int)m)`. -/
def char_attr_not (m : Nat) : Nat := int_not m

/-! ## `yaft.h`: constant tables -/

/-- The table `attr_mask`, indexed by graphic-rendition parameter:
0:none 1:bold 2:none 3:none 4:underline 5:blink 6:none 7:reverse. -/
def attr_mask : List Nat :=
  [ 0x00, 0x01, 0x00, 0x00,
    0x02, 0x04, 0x00, 0x08]

/-- The element `attr_mask[i]`; every use below has `i < 8`, and the value
given for an index outside the table is never relied on. -/
def attr_mask_at (i : Nat) : Nat := attr_mask.getD i 0

/-- The table `bit_mask`. -/
def bit_mask : List Nat :=
  [ 0x00,       0x01,       0x03,       0x07,      0x0F,      0x1F,
    0x3F,       0x7F,       0xFF,       0x1FF,     0x3FF,     0x7FF,
    0xFFF,      0x1FFF,     0x3FFF,     0x7FFF,    0xFFFF,    0x1FFFF,
    0x3FFFF,    0x7FFFF,    0xFFFFF,    0x1FFFFF,  0x3FFFFF,  0x7FFFFF,
    0xFFFFFF,   0x1FFFFFF,  0x3FFFFFF,  0x7FFFFFF, 0xFFFFFFF, 0x1FFFFFFF,
    0x3FFFFFFF, 0x7FFFFFFF, 0xFFFFFFFF]

/-- The element `bit_mask[n]`; every use below has `n < 33`. -/
def bit_mask_at (n : Nat) : Nat := bit_mask.getD n 0

/-! ## `yaft.h`: `enum term_mode` and its operators -/

def MODE_RESET : Nat := 0x00
/-- Origin mode: DECOM. -/
def MODE_ORIGIN : Nat := 0x01
/-- Cursor visible: DECTCEM. -/
def MODE_CURSOR : Nat := 0x02
/-- Auto wrap: DECAWM. -/
def MODE_AMRIGHT : Nat := 0x04
/-- Variable-width backspace. -/
def MODE_VWBS : Nat := 0x08
/-- App cursor mode. -/
def MODE_APP_CURSOR : Nat := 0x10
/-- Enable xterm mouse. -/
def MODE_MOUSE : Nat := 0x20
/-- Enable xterm mouse (motion). -/
def MODE_MOUSE_MOVE : Nat := 0x40

/-- The seven named mode flags, in declaration order. -/
def named_modes : List Nat :=
  [ MODE_ORIGIN, MODE_CURSOR, MODE_AMRIGHT, MODE_VWBS, MODE_APP_CURSOR, MODE_MOUSE,
    MODE_MOUSE_MOVE]

/-- The operator `|=` on `term_mode`: the new value of `m` is `(term_mode)(m | o)`. -/
def term_mode_or_assign (m o : Nat) : Nat := m ||| o

/-- The operator `|` on `term_mode`: `(term_mode)((int)m | (int)o)`. -/
def term_mode_or (m o : Nat) : Nat := m ||| o

/-- The operator `&=` on `term_mode`: the new value of `m` is `(term_mode)(m & o)`. -/
def term_mode_and_assign (m o : Nat) : Nat := m &&& o

/-- The operator `&` on `term_mode`: `(term_mode)((int)m & (int)o)`. -/
def term_mode_and (m o : Nat) : Nat := m &&& o

/-- The operator `~` on `term_mode`: `(term_mode)(~(int)m)`. -/
def term_mode_not (m : Nat) : Nat := int_not m

/-- The anonymous enumerator `ALL_MOUSE_MODES = MODE_MOUSE_MOVE | MODE_MOUSE`. -/
def ALL_MOUSE_MODES : Nat := term_mode_or MODE_MOUSE_MOVE MODE_MOUSE

/-! ## `yaft.h`: `enum esc_state` -/

/-- The enumeration `esc_state`. -/
inductive esc_state where
  | STATE_RESET
  | STATE_ESC
  | STATE_CSI
  | STATE_OSC
  | STATE_DCS
  deriving DecidableEq, Repr, Fintype

/-- The integer value of each enumerator of `esc_state`. -/
def esc_state.val : esc_state → Nat
  | .STATE_RESET => 0x00
  | .STATE_ESC => 0x01
  | .STATE_CSI => 0x02
  | .STATE_OSC => 0x04
  | .STATE_DCS => 0x08

/-- The built-in `s & t` on two `esc_state` values (no operator is overloaded
for this enumeration, both operands are promoted to integers). -/
def esc_state.band (s t : esc_state) : Nat := s.val &&& t.val

/-! ## `Device.cpp`: input paths and transforms -/

def screen_width : Int := 1404
def screen_height : Int := 1872

def rm1_touch_width : Int := 767
def rm1_touch_height : Int := 1023

def wacom_width : Int := 15725
def wacom_height : Int := 20967

/-- A constant initialiser of type `float`, kept as the unevaluated source
expression: no floating-point arithmetic is carried out on it. -/
inductive FloatExpr where
  /-- An integer constant `n` converted to `float`. -/
  | int (n : Int)
  /-- The expression `float(num) / den`. -/
  | quot (num den : Int)
  /-- The expression `-float(num) / den`. -/
  | neg_quot (num den : Int)
  deriving DecidableEq, Repr

/-- A `Transform`: the two rows of its matrix and its offset, as they are
written in the brace initialisers of `Device.cpp`. -/
structure Transform where
  row0 : FloatExpr × FloatExpr
  row1 : FloatExpr × FloatExpr
  offset : Int × Int
  deriving DecidableEq, Repr

/-- The record `InputPaths`, fields in initialiser order (touch path and
transform, pen path and transform, keys path). -/
structure InputPaths where
  touchPath : String
  touchTransform : Transform
  penPath : String
  penTransform : Transform
  keysPath : String
  deriving DecidableEq, Repr

def wacom_transform : Transform :=
  { row0 := (.int 0, .quot screen_width wacom_width),
    row1 := (.neg_quot screen_height wacom_height, .int 0),
    offset := (0, screen_height) }

def rm1_paths : InputPaths :=
  { touchPath := "/dev/input/event1",
    touchTransform :=
      { row0 := (.neg_quot screen_width rm1_touch_width, .int 0),
        row1 := (.int 0, .neg_quot screen_height rm1_touch_height),
        offset := (screen_width, screen_height) },
    penPath := "/dev/input/event0",
    penTransform := wacom_transform,
    keysPath := "/dev/input/event2" }

def rm2_paths : InputPaths :=
  { touchPath := "/dev/input/event2",
    touchTransform :=
      { row0 := (.int 1, .int 0), row1 := (.int 0, .int (-1)), offset := (0, screen_height) },
    penPath := "/dev/input/event1",
    penTransform := wacom_transform,
    keysPath := "/dev/input/event0" }

/-- The error values built in `Device.cpp`: `Error::errn()` and `Error{ text }`. -/
inductive Error where
  | errn
  | msg (text : String)
  deriving DecidableEq, Repr

/-- The device types named in `Device.cpp`. -/
inductive DeviceType where
  | reMarkable1
  | reMarkable2
  deriving DecidableEq, Repr

/-- The search `s.find(pat)` of `std::string`: the first position at which
`pat` occurs in `s`, or `none` for `npos`. -/
def str_find : List Char → List Char → Option Nat
  | [], pat => if pat.isEmpty then some 0 else none
  | c :: cs, pat =>
    if pat.isPrefixOf (c :: cs) then some 0 else (str_find cs pat).map (· + 1)

/-- The function `getDeviceType`.  `EMULATE` is the build flag; `machine` is
the content of `/sys/devices/soc0/machine`, or `none` when the file cannot be
opened. -/
def getDeviceType (EMULATE : Bool) (machine : Option String) : Except Error DeviceType :=
  if EMULATE then
    .ok .reMarkable2
  else
    match machine with
    | none => .error (.msg "Couldn't open device path")
    | some name =>
      if str_find name.toList "2.0".toList = none then
        .ok .reMarkable1
      else
        .ok .reMarkable2

/-- The function `getInputPaths`. -/
def getInputPaths (type : DeviceType) : InputPaths :=
  match type with
  | .reMarkable1 => rm1_paths
  | .reMarkable2 => rm2_paths

/-- The function `getInputTransform`. -/
def getInputTransform (EMULATE : Bool) (machine : Option String) (path : String) :
    Option Transform :=
  match getDeviceType EMULATE machine with
  | .error _ => none
  | .ok devType =>
    let paths := getInputPaths devType
    if path = paths.touchPath then
      some paths.touchTransform
    else if path = paths.penPath then
      some paths.penTransform
    else
      none

/-! ## `Device.cpp`: `readFile` -/

/-- What the C library does with the stream that `fopen` returned:
`contents` are the bytes of the file when `ftell` measures it, `readable` is
the number of bytes a following read can still obtain before it stops, and
`stop_is_eof` tells whether a read that stops early stopped at end of file
(rather than on a read error). -/
structure FileStream where
  contents : List Nat
  readable : Nat
  stop_is_eof : Bool
  deriving DecidableEq, Repr

/-- Bytes transferred by `fread(ptr, size, nmemb, f)`. -/
def fread_bytes (size nmemb : Nat) (f : FileStream) : Nat :=
  min (size * nmemb) f.readable

/-- Return value of `fread(ptr, size, nmemb, f)`: the number of complete
items read, zero when `size` or `nmemb` is zero. -/
def fread (size nmemb : Nat) (f : FileStream) : Nat :=
  if size = 0 ∨ nmemb = 0 then 0 else fread_bytes size nmemb f / size

/-- Value of `feof(f)` after `fread(ptr, size, nmemb, f)` on a freshly
rewound stream. -/
def feof_after (size nmemb : Nat) (f : FileStream) : Bool :=
  decide (f.readable < size * nmemb) && f.stop_is_eof

/-- The function `readFile`; `opened` is `none` when `fopen` fails.  The
positioning calls `fseek` and `ftell` are taken to succeed. -/
def readFile (opened : Option FileStream) : Except Error (List Nat) :=
  match opened with
  | none => .error .errn
  | some f =>
    let size := f.contents.length
    let got := fread_bytes size 1 f
    let result := f.contents.take got ++ List.replicate (size + 1 - got) 0
    let read := fread size 1 f
    if read ≠ size ∧ ¬(read = 0 ∧ feof_after size 1 f = true) then
      .error (.msg ("Only read: " ++ toString read ++ " bytes?"))
    else
      .ok result

/-! ## `main.cpp`: `fork_and_exec` -/

def term_name : String := "yaft-256color"

/-- The record `struct winsize`; each field is an `unsigned short`. -/
structure winsize where
  ws_row : Nat
  ws_col : Nat
  ws_xpixel : Nat
  ws_ypixel : Nat
  deriving DecidableEq, Repr

/-- How a call of `fork_and_exec` ends: it returns a `bool` to its caller, or
(in the child) it sets `TERM` and replaces the process image by `cmd`. -/
inductive ForkOutcome where
  | returned (ok : Bool)
  | child_exec (term cmd : String)
  deriving DecidableEq, Repr

/-- The function `fork_and_exec`.  `CELL_WIDTH` and `CELL_HEIGHT` are the cell
pixel dimensions of `glyph.h`, `forkpty` gives the pid that the library call
returns for the window size it is handed.  The result is that window size
together with the outcome. -/
def fork_and_exec (CELL_WIDTH CELL_HEIGHT : Nat) (forkpty : winsize → Int)
    (cmd : String) (lines cols : Int) : winsize × ForkOutcome :=
  let ws : winsize :=
    { ws_row := to_u16 lines,
      ws_col := to_u16 cols,
      ws_ypixel := to_u16 ((CELL_HEIGHT : Int) * lines),
      ws_xpixel := to_u16 ((CELL_WIDTH : Int) * cols) }
  let pid := forkpty ws
  if pid < 0 then
    (ws, .returned false)
  else if pid = 0 then
    (ws, .child_exec term_name cmd)
  else
    (ws, .returned true)

/-! ## `main.cpp`: the pty callback of `YaftState::init` -/

/-- The state object `YaftState`, reduced to its one member. -/
structure YaftState (Terminal : Type) where
  term : Terminal

/-- The calls the callback makes that are visible outside it. -/
inductive HostCall (Terminal : Type) where
  /-- The call `parse(term, buf, size)`. -/
  | parse (term : Terminal) (buf : List Nat) (size : Int)
  /-- The redraw request that `setState` files after running its argument. -/
  | redraw
  deriving DecidableEq, Repr

/-- Modelled from the spec: `setState` of the widget library (`UI.h`, not among
the sources) runs the function it is given once, on the state object itself,
and then schedules a redraw. -/
def setState {Terminal : Type} (self : YaftState Terminal)
    (fn : YaftState Terminal → List (HostCall Terminal)) : List (HostCall Terminal) :=
  fn self ++ [HostCall.redraw]

/-- Capacity of the buffer `std::array<char, 512> buf`. -/
def buf_size : Nat := 512

/-- The callback passed to `listenFd` for the pty.  `buf` is the buffer after
the call of `read` and `size` is what that call returned; `w` is the width of
`size_t`. -/
def pty_readable {Terminal : Type} (w : Nat) (self : YaftState Terminal)
    (buf : List Nat) (size : Int) : List (HostCall Terminal) :=
  if to_size_t w size ≠ buf_size then
    setState self (fun self => [HostCall.parse self.term buf size])
  else
    [HostCall.parse self.term buf size]

/-- Whether a call is a call of `parse`. -/
def HostCall.is_parse {Terminal : Type} : HostCall Terminal → Bool
  | .parse _ _ _ => true
  | .redraw => false

/-! ## Accumulated attributes -/

/-- The attribute value reached from `ATTR_RESET` by one `attribute |= attr_mask[a]`
for each parameter `a` of `S`, in order. -/
def attrs_union (S : List Nat) : Nat :=
  S.foldl (fun m a => char_attr_or_assign m (attr_mask_at a)) ATTR_RESET

/-! ## Bit-level lemmas -/

theorem or_and_absorb (m f : Nat) : (m ||| f) &&& f = f := by
  apply Nat.eq_of_testBit_eq
  intro i
  rw [Nat.testBit_and, Nat.testBit_or]
  cases m.testBit i <;> cases f.testBit i <;> rfl

theorem or_and_distrib (m f g : Nat) : (m ||| f) &&& g = (m &&& g) ||| (f &&& g) := by
  rw [Nat.and_comm, Nat.and_or_distrib_left, Nat.and_comm g m, Nat.and_comm g f]

theorem or_and_other (m f g : Nat) (h : f &&& g = 0) : (m ||| f) &&& g = m &&& g := by
  rw [or_and_distrib, h, Nat.or_zero]

theorem and_and_keep (m n g : Nat) (h : n &&& g = g) : (m &&& n) &&& g = m &&& g := by
  rw [Nat.and_assoc, h]

theorem and_and_clear (m n g : Nat) (h : n &&& g = 0) : (m &&& n) &&& g = 0 := by
  rw [Nat.and_assoc, h, Nat.and_zero]

theorem or_eq_zero_iff (x y : Nat) : x ||| y = 0 ↔ x = 0 ∧ y = 0 := by
  constructor
  · intro h
    have hx : x = 0 := by
      apply Nat.eq_of_testBit_eq
      intro i
      have hi := congrArg (fun n => Nat.testBit n i) h
      simp only [Nat.testBit_or, Nat.zero_testBit, Bool.or_eq_false_iff] at hi
      rw [Nat.zero_testBit]
      exact hi.1
    have hy : y = 0 := by
      apply Nat.eq_of_testBit_eq
      intro i
      have hi := congrArg (fun n => Nat.testBit n i) h
      simp only [Nat.testBit_or, Nat.zero_testBit, Bool.or_eq_false_iff] at hi
      rw [Nat.zero_testBit]
      exact hi.2
    exact ⟨hx, hy⟩
  · rintro ⟨rfl, rfl⟩
    rfl

/-! ## `term_mode` -/

theorem named_modes_cases (f : Nat) (hf : f ∈ named_modes) :
    f = MODE_ORIGIN ∨ f = MODE_CURSOR ∨ f = MODE_AMRIGHT ∨ f = MODE_VWBS ∨
      f = MODE_APP_CURSOR ∨ f = MODE_MOUSE ∨ f = MODE_MOUSE_MOVE := by
  simpa [named_modes] using hf

/-- C3: every named mode flag is a single bit and two different named flags
share no bit; for every mode value `m` and named flags `f`, `g`: after
`m |= f` the test `m & f` gives `f`, after `m &= ~f` it gives `MODE_RESET`,
and when `g` differs from `f` the test `m & g` gives the same value after
either update as before it. -/
theorem term_mode_flags_independent (m f g : Nat) (hf : f ∈ named_modes)
    (hg : g ∈ named_modes) :
    (∃ k, k < 7 ∧ f = 2 ^ k) ∧
    (g ≠ f → term_mode_and f g = MODE_RESET) ∧
    term_mode_and (term_mode_or_assign m f) f = f ∧
    term_mode_and (term_mode_and_assign m (term_mode_not f)) f = MODE_RESET ∧
    (g ≠ f →
      term_mode_and (term_mode_or_assign m f) g = term_mode_and m g ∧
      term_mode_and (term_mode_and_assign m (term_mode_not f)) g = term_mode_and m g) := by
  have h1 : ∃ k, k < 7 ∧ f = 2 ^ k := by
    rcases named_modes_cases f hf with h | h | h | h | h | h | h <;> subst h
    exacts [⟨0, by decide⟩, ⟨1, by decide⟩, ⟨2, by decide⟩, ⟨3, by decide⟩, ⟨4, by decide⟩,
      ⟨5, by decide⟩, ⟨6, by decide⟩]
  have h3 : int_not f &&& f = 0 := by
    rcases named_modes_cases f hf with h | h | h | h | h | h | h <;> subst h <;> decide
  have h24 : g ≠ f → f &&& g = 0 ∧ int_not f &&& g = g := by
    rcases named_modes_cases f hf with h | h | h | h | h | h | h <;> subst h <;>
    rcases named_modes_cases g hg with h | h | h | h | h | h | h <;> subst h <;> decide
  refine ⟨h1, fun hne => (h24 hne).1, or_and_absorb m f, and_and_clear m _ f h3,
    fun hne => ⟨?_, ?_⟩⟩
  · exact or_and_other m f g (h24 hne).1
  · exact and_and_keep m _ g (h24 hne).2

/-- Witness for C3: a mode value with origin, auto-wrap and mouse reporting
on, updated at the click-reporting bit and observed at the motion bit. -/
theorem term_mode_flags_independent_witness :
    MODE_MOUSE ∈ named_modes ∧ MODE_MOUSE_MOVE ∈ named_modes ∧
    term_mode_and (term_mode_or_assign 0x45 MODE_MOUSE) MODE_MOUSE = MODE_MOUSE ∧
    term_mode_and (term_mode_and_assign 0x45 (term_mode_not MODE_MOUSE)) MODE_MOUSE
      = MODE_RESET ∧
    term_mode_and (term_mode_or_assign 0x45 MODE_MOUSE) MODE_MOUSE_MOVE
      = term_mode_and 0x45 MODE_MOUSE_MOVE ∧
    term_mode_and (term_mode_and_assign 0x45 (term_mode_not MODE_MOUSE)) MODE_MOUSE_MOVE
      = term_mode_and 0x45 MODE_MOUSE_MOVE :=
  have h := term_mode_flags_independent 0x45 MODE_MOUSE MODE_MOUSE_MOVE (by decide) (by decide)
  ⟨by decide, by decide, h.2.2.1, h.2.2.2.1, (h.2.2.2.2 (by decide)).1,
    (h.2.2.2.2 (by decide)).2⟩

/-! ## `esc_state` -/

/-- C6: `esc_state` has exactly five values; `STATE_RESET` is 0, each other
state is a single bit, different states have different values, and for any
two states the test `s & t` is non-zero exactly when `s = t` and `s` is not
`STATE_RESET`. -/
theorem esc_state_single_bits :
    Fintype.card esc_state = 5 ∧
    (∀ s : esc_state, s = .STATE_RESET ∨ s = .STATE_ESC ∨ s = .STATE_CSI ∨
      s = .STATE_OSC ∨ s = .STATE_DCS) ∧
    esc_state.STATE_RESET.val = 0 ∧
    (∀ s : esc_state, s ≠ .STATE_RESET → ∃ k, k < 4 ∧ s.val = 2 ^ k) ∧
    (∀ s t : esc_state, s ≠ t → s.val ≠ t.val) ∧
    (∀ s t : esc_state, esc_state.band s t ≠ 0 ↔ (s = t ∧ s ≠ .STATE_RESET)) := by
  refine ⟨by rfl, by decide, by rfl, by decide, by decide, by decide⟩

/-- Witness for C6: the control-sequence and operating-system-command states. -/
theorem esc_state_single_bits_witness :
    esc_state.STATE_CSI ≠ esc_state.STATE_OSC ∧
    esc_state.STATE_CSI.val ≠ esc_state.STATE_OSC.val ∧
    (∃ k, k < 4 ∧ esc_state.STATE_CSI.val = 2 ^ k) ∧
    esc_state.band .STATE_CSI .STATE_CSI ≠ 0 ∧
    ¬ esc_state.band .STATE_CSI .STATE_OSC ≠ 0 :=
  have h := esc_state_single_bits
  ⟨by decide, h.2.2.2.2.1 .STATE_CSI .STATE_OSC (by decide),
    h.2.2.2.1 .STATE_CSI (by decide),
    (h.2.2.2.2.2 .STATE_CSI .STATE_CSI).mpr ⟨rfl, by decide⟩,
    fun hne => absurd ((h.2.2.2.2.2 .STATE_CSI .STATE_OSC).mp hne).1 (by decide)⟩

/-! ## `attr_mask` -/

theorem named_attrs_cases (a : Nat) (ha : a ∈ named_attrs) :
    a = ATTR_BOLD ∨ a = ATTR_UNDERLINE ∨ a = ATTR_BLINK ∨ a = ATTR_REVERSE := by
  simpa [named_attrs] using ha

theorem attr_mask_and_ne_zero (a b : Nat) (ha : a ∈ named_attrs) (hb : b ∈ named_attrs) :
    attr_mask_at b &&& attr_mask_at a ≠ 0 ↔ a = b := by
  rcases named_attrs_cases a ha with h | h | h | h <;> subst h <;>
  rcases named_attrs_cases b hb with h | h | h | h <;> subst h <;> decide

theorem attrs_fold_test (S : List Nat) (a : Nat) (hS : ∀ x ∈ S, x ∈ named_attrs)
    (ha : a ∈ named_attrs) (acc : Nat) :
    (S.foldl (fun m x => char_attr_or_assign m (attr_mask_at x)) acc) &&& attr_mask_at a ≠ 0
      ↔ (acc &&& attr_mask_at a ≠ 0 ∨ a ∈ S) := by
  induction S generalizing acc with
  | nil => simp
  | cons x xs ih =>
    have hx : x ∈ named_attrs := hS x (List.mem_cons_self x xs)
    have hxs : ∀ y ∈ xs, y ∈ named_attrs := fun y hy => hS y (List.mem_cons_of_mem x hy)
    rw [List.foldl_cons, ih hxs, char_attr_or_assign, or_and_distrib, Ne, or_eq_zero_iff,
      List.mem_cons]
    have key := attr_mask_and_ne_zero a x ha hx
    constructor
    · rintro (h | h)
      · by_cases h0 : acc &&& attr_mask_at a = 0
        · right; left
          exact key.mp (fun h1 => h ⟨h0, h1⟩)
        · left; exact h0
      · right; right; exact h
    · rintro (h | h | h)
      · left; exact fun h1 => h h1.1
      · left; exact fun h1 => key.mpr h h1.2
      · right; exact h

/-- C4: `attr_mask` has eight entries; it maps `ATTR_RESET` to 0x00, `ATTR_BOLD`
to 0x01, `ATTR_UNDERLINE` to 0x02, `ATTR_BLINK` to 0x04, `ATTR_REVERSE` to 0x08
and the parameters 2, 3 and 6 to 0x00; the mask of a named attribute `a` is a
single bit that it shares with the mask of no other named attribute; and for
every collection `S` of named attributes, the masks of `S` or-ed together
have a bit in common with the mask of `a` exactly when `a` is in `S`. -/
theorem attr_mask_table (S : List Nat) (a : Nat) (hS : ∀ x ∈ S, x ∈ named_attrs)
    (ha : a ∈ named_attrs) :
    attr_mask.length = 8 ∧
    (attr_mask[ATTR_RESET]? = some 0x00 ∧ attr_mask[ATTR_BOLD]? = some 0x01 ∧
      attr_mask[ATTR_UNDERLINE]? = some 0x02 ∧ attr_mask[ATTR_BLINK]? = some 0x04 ∧
      attr_mask[ATTR_REVERSE]? = some 0x08) ∧
    (attr_mask[2]? = some 0x00 ∧ attr_mask[3]? = some 0x00 ∧ attr_mask[6]? = some 0x00) ∧
    (∃ k, k < 4 ∧ attr_mask_at a = 2 ^ k) ∧
    (∀ b ∈ named_attrs, b ≠ a → char_attr_and (attr_mask_at a) (attr_mask_at b) = 0) ∧
    (char_attr_and (attrs_union S) (attr_mask_at a) ≠ 0 ↔ a ∈ S) := by
  refine ⟨by rfl, by decide, by decide, ?_, ?_, ?_⟩
  · rcases named_attrs_cases a ha with h | h | h | h <;> subst h
    exacts [⟨0, by decide⟩, ⟨1, by decide⟩, ⟨2, by decide⟩, ⟨3, by decide⟩]
  · intro b hb hne
    by_contra hcon
    exact hne ((attr_mask_and_ne_zero b a hb ha).mp hcon)
  · have h := attrs_fold_test S a hS ha ATTR_RESET
    have h0 : ATTR_RESET &&& attr_mask_at a = 0 := by
      rw [ATTR_RESET, Nat.zero_and]
    unfold attrs_union char_attr_and
    rw [h]
    constructor
    · rintro (h1 | h1)
      · exact absurd h0 h1
      · exact h1
    · exact fun h1 => Or.inr h1

/-- Witness for C4: bold and reverse selected, underline tested. -/
theorem attr_mask_table_witness :
    (∀ x ∈ [ ATTR_BOLD, ATTR_REVERSE], x ∈ named_attrs) ∧ ATTR_UNDERLINE ∈ named_attrs ∧
    ATTR_UNDERLINE ∉ [ ATTR_BOLD, ATTR_REVERSE] ∧
    ¬ char_attr_and (attrs_union [ ATTR_BOLD, ATTR_REVERSE]) (attr_mask_at ATTR_UNDERLINE) ≠ 0 :=
  have h := attr_mask_table [ ATTR_BOLD, ATTR_REVERSE] ATTR_UNDERLINE (by decide) (by decide)
  ⟨by decide, by decide, by decide, fun hne => absurd (h.2.2.2.2.2.mp hne) (by decide)⟩

/-! ## `char_attr` -/

/-- C7 does not hold for the named constants themselves: `ATTR_BOLD` (1) and
`ATTR_BLINK` (5) are distinct but `ATTR_BOLD & ATTR_BLINK` is `ATTR_BOLD`, not
`ATTR_RESET`; `(ATTR_BOLD | ATTR_BLINK) & ~ATTR_BOLD` is 4, not `ATTR_BLINK`;
and `ATTR_BOLD | ATTR_UNDERLINE` equals the third constant `ATTR_BLINK`.  Hence
the three laws, quantified over the named constants, are refuted. -/
theorem char_attr_constants_not_bitflags :
    (char_attr_and ATTR_BOLD ATTR_BLINK = ATTR_BOLD ∧
      char_attr_and (char_attr_or ATTR_BOLD ATTR_BLINK) (char_attr_not ATTR_BOLD)
        = ATTR_UNDERLINE ∧
      char_attr_or ATTR_BOLD ATTR_UNDERLINE = ATTR_BLINK) ∧
    ¬ (∀ a ∈ named_attrs, ∀ b ∈ named_attrs, a ≠ b →
        char_attr_and a b = ATTR_RESET ∧
        char_attr_and (char_attr_or a b) (char_attr_not a) = b ∧
        ∀ c ∈ named_attrs, c ≠ a → c ≠ b → char_attr_or a b ≠ c) := by
  refine ⟨by decide, fun h => ?_⟩
  have h1 := (h ATTR_BOLD (by decide) ATTR_BLINK (by decide) (by decide)).1
  exact absurd h1 (by decide)

/-- C7, amended: the bit-flag laws hold for the masks that `attr_mask` assigns
to the named constants.  For two distinct named constants `a` and `b`,
`attr_mask[a] & attr_mask[b]` is `ATTR_RESET`,
`(attr_mask[a] | attr_mask[b]) & ~attr_mask[a]` is `attr_mask[b]`, and
`attr_mask[a] | attr_mask[b]` is the mask of no named constant. -/
theorem attr_mask_bitflags (a b : Nat) (ha : a ∈ named_attrs) (hb : b ∈ named_attrs)
    (hab : a ≠ b) :
    char_attr_and (attr_mask_at a) (attr_mask_at b) = ATTR_RESET ∧
    char_attr_and (char_attr_or (attr_mask_at a) (attr_mask_at b))
      (char_attr_not (attr_mask_at a)) = attr_mask_at b ∧
    ∀ c ∈ named_attrs, char_attr_or (attr_mask_at a) (attr_mask_at b) ≠ attr_mask_at c := by
  rcases named_attrs_cases a ha with h | h | h | h <;> subst h <;>
  rcases named_attrs_cases b hb with h | h | h | h <;> subst h <;>
  first
    | exact absurd rfl hab
    | decide

/-- Witness for the amended C7: bold and blink, the pair that refutes the
laws on the constants themselves. -/
theorem attr_mask_bitflags_witness :
    ATTR_BOLD ∈ named_attrs ∧ ATTR_BLINK ∈ named_attrs ∧ ATTR_BOLD ≠ ATTR_BLINK ∧
    char_attr_and (attr_mask_at ATTR_BOLD) (attr_mask_at ATTR_BLINK) = ATTR_RESET ∧
    char_attr_and (char_attr_or (attr_mask_at ATTR_BOLD) (attr_mask_at ATTR_BLINK))
      (char_attr_not (attr_mask_at ATTR_BOLD)) = attr_mask_at ATTR_BLINK :=
  have h := attr_mask_bitflags ATTR_BOLD ATTR_BLINK (by decide) (by decide) (by decide)
  ⟨by decide, by decide, by decide, h.1, h.2.1⟩

/-! ## `bit_mask` -/

/-- C10: `bit_mask` has 33 entries, `bit_mask[n]` is `2^n - 1` for every
`n` from 0 to 32, and for every 32-bit unsigned `x` the value
`x & bit_mask[n]` is `x mod 2^n`. -/
theorem bit_mask_low_bits (x n : Nat) (hx : x < 2 ^ 32) (hn : n ≤ 32) :
    bit_mask.length = 33 ∧
    bit_mask[n]? = some (2 ^ n - 1) ∧
    x &&& bit_mask_at n = x % 2 ^ n ∧
    x &&& bit_mask_at n < 2 ^ 32 := by
  have hlen : bit_mask.length = 33 := by rfl
  have htab : bit_mask[n]? = some (2 ^ n - 1) := by
    interval_cases n <;> rfl
  have hat : bit_mask_at n = 2 ^ n - 1 := by
    unfold bit_mask_at
    rw [List.getD_eq_getElem?_getD, htab]
    rfl
  have hand : x &&& bit_mask_at n = x % 2 ^ n := by
    rw [hat, Nat.and_pow_two_sub_one_eq_mod]
  refine ⟨hlen, htab, hand, ?_⟩
  rw [hand]
  exact Nat.lt_of_le_of_lt (Nat.mod_le x _) hx

/-- Witness for C10: the low 12 bits of `0xDEADBEEF`. -/
theorem bit_mask_low_bits_witness :
    (0xDEADBEEF : Nat) < 2 ^ 32 ∧ 12 ≤ 32 ∧ bit_mask[12]? = some (2 ^ 12 - 1) ∧
    0xDEADBEEF &&& bit_mask_at 12 = 0xDEADBEEF % 2 ^ 12 :=
  have h := bit_mask_low_bits 0xDEADBEEF 12 (by decide) (by decide)
  ⟨by decide, by decide, h.2.1, h.2.2.1⟩

/-! ## The soft-glyph bank -/

/-- C5: `DRCS_CHARS` is `DRCS_CHARSETS * GLYPHS_PER_CHARSET = 63 * 96 = 6048`;
for a charset index `s < 63` and a glyph index `g < 96` the slot
`s * 96 + g` is below 6048, two such pairs with the same slot are equal, and
every slot below 6048 is the slot of exactly one such pair. -/
theorem drcs_slots_in_bounds :
    (DRCS_CHARSETS = 63 ∧ GLYPHS_PER_CHARSET = 96 ∧
      DRCS_CHARS = DRCS_CHARSETS * GLYPHS_PER_CHARSET ∧ DRCS_CHARS = 6048) ∧
    (∀ s g : Nat, s < DRCS_CHARSETS → g < GLYPHS_PER_CHARSET →
      s * GLYPHS_PER_CHARSET + g < DRCS_CHARS) ∧
    (∀ s g s' g' : Nat, s < DRCS_CHARSETS → g < GLYPHS_PER_CHARSET →
      s' < DRCS_CHARSETS → g' < GLYPHS_PER_CHARSET →
      s * GLYPHS_PER_CHARSET + g = s' * GLYPHS_PER_CHARSET + g' → s = s' ∧ g = g') ∧
    (∀ n : Nat, n < DRCS_CHARS →
      ∃! p : Nat × Nat, p.1 < DRCS_CHARSETS ∧ p.2 < GLYPHS_PER_CHARSET ∧
        p.1 * GLYPHS_PER_CHARSET + p.2 = n) := by
  refine ⟨⟨rfl, rfl, rfl, rfl⟩, ?_, ?_, ?_⟩
  · intro s g hs hg
    simp only [DRCS_CHARS, DRCS_CHARSETS, GLYPHS_PER_CHARSET] at *
    omega
  · intro s g s' g' hs hg hs' hg' h
    simp only [DRCS_CHARSETS, GLYPHS_PER_CHARSET] at *
    omega
  · intro n hn
    simp only [DRCS_CHARS, DRCS_CHARSETS, GLYPHS_PER_CHARSET] at *
    refine ⟨(n / 96, n % 96), ⟨by show n / 96 < 63; omega, by show n % 96 < 96; omega,
      by show n / 96 * 96 + n % 96 = n; omega⟩, ?_⟩
    rintro ⟨s, g⟩ ⟨hs, hg, hsg⟩
    simp only at hs hg hsg
    have h1 : s = n / 96 := by omega
    have h2 : g = n % 96 := by omega
    rw [h1, h2]

/-- Witness for C5: the last glyph of the last charset occupies the last slot. -/
theorem drcs_slots_in_bounds_witness :
    62 < DRCS_CHARSETS ∧ 95 < GLYPHS_PER_CHARSET ∧
    62 * GLYPHS_PER_CHARSET + 95 < DRCS_CHARS ∧
    62 * GLYPHS_PER_CHARSET + 95 = 6047 :=
  ⟨by decide, by decide, drcs_slots_in_bounds.2.1 62 95 (by decide) (by decide), by decide⟩

/-! ## `getInputTransform` -/

theorem paths_distinct (d : DeviceType) :
    (getInputPaths d).touchPath ≠ (getInputPaths d).penPath ∧
    (getInputPaths d).touchPath ≠ (getInputPaths d).keysPath ∧
    (getInputPaths d).penPath ≠ (getInputPaths d).keysPath := by
  cases d <;> decide

theorem getInputTransform_ok (E : Bool) (machine : Option String) (d : DeviceType)
    (h : getDeviceType E machine = .ok d) (p : String) :
    getInputTransform E machine p =
      if p = (getInputPaths d).touchPath then some (getInputPaths d).touchTransform
      else if p = (getInputPaths d).penPath then some (getInputPaths d).penTransform
      else none := by
  unfold getInputTransform
  rw [h]

/-- C9: when `getDeviceType` succeeds with `d`, `getInputTransform p` is the
touch transform of `getInputPaths d` if `p` is its touch path, otherwise the
pen transform if `p` is its pen path, otherwise nothing; the touch, pen and
keys paths of `rm1_paths` and of `rm2_paths` are pairwise distinct, so the
keys path gives nothing, the touch path gives the touch transform and the pen
path gives the pen transform; and when `getDeviceType` fails the result is
nothing for every path. -/
theorem getInputTransform_lookup (E : Bool) (machine : Option String) (p : String) :
    (∀ d, getDeviceType E machine = .ok d →
      (getInputTransform E machine p =
        if p = (getInputPaths d).touchPath then some (getInputPaths d).touchTransform
        else if p = (getInputPaths d).penPath then some (getInputPaths d).penTransform
        else none) ∧
      getInputTransform E machine (getInputPaths d).keysPath = none ∧
      getInputTransform E machine (getInputPaths d).touchPath
        = some (getInputPaths d).touchTransform ∧
      getInputTransform E machine (getInputPaths d).penPath
        = some (getInputPaths d).penTransform) ∧
    (∀ e, getDeviceType E machine = .error e → getInputTransform E machine p = none) ∧
    (rm1_paths.touchPath ≠ rm1_paths.penPath ∧ rm1_paths.touchPath ≠ rm1_paths.keysPath ∧
      rm1_paths.penPath ≠ rm1_paths.keysPath) ∧
    (rm2_paths.touchPath ≠ rm2_paths.penPath ∧ rm2_paths.touchPath ≠ rm2_paths.keysPath ∧
      rm2_paths.penPath ≠ rm2_paths.keysPath) := by
  refine ⟨fun d h => ⟨getInputTransform_ok E machine d h p, ?_, ?_, ?_⟩, ?_,
    paths_distinct .reMarkable1, paths_distinct .reMarkable2⟩
  · have hd := paths_distinct d
    rw [getInputTransform_ok E machine d h, if_neg (Ne.symm hd.2.1), if_neg (Ne.symm hd.2.2)]
  · rw [getInputTransform_ok E machine d h, if_pos rfl]
  · have hd := paths_distinct d
    rw [getInputTransform_ok E machine d h, if_neg (Ne.symm hd.1), if_pos rfl]
  · intro e h
    unfold getInputTransform
    rw [h]

/-- Witness for C9: a first-generation device (machine name without "2.0"),
a second-generation device, and a device whose machine file cannot be opened. -/
theorem getInputTransform_lookup_witness :
    getDeviceType false (some "reMarkable Prototype 1") = .ok .reMarkable1 ∧
    getInputTransform false (some "reMarkable Prototype 1") "/dev/input/event1"
      = some rm1_paths.touchTransform ∧
    getInputTransform false (some "reMarkable Prototype 1") "/dev/input/event2" = none ∧
    getDeviceType false (some "reMarkable 2.0") = .ok .reMarkable2 ∧
    getInputTransform false (some "reMarkable 2.0") "/dev/input/event1"
      = some wacom_transform ∧
    getDeviceType false none = .error (.msg "Couldn't open device path") ∧
    getInputTransform false none "/dev/input/event1" = none :=
  ⟨by rfl,
    ((getInputTransform_lookup false (some "reMarkable Prototype 1") "/dev/input/event1").1
      .reMarkable1 (by rfl)).2.2.1,
    ((getInputTransform_lookup false (some "reMarkable Prototype 1") "/dev/input/event1").1
      .reMarkable1 (by rfl)).2.1,
    by rfl,
    ((getInputTransform_lookup false (some "reMarkable 2.0") "/dev/input/event1").1
      .reMarkable2 (by rfl)).2.2.2,
    by rfl,
    (getInputTransform_lookup false none "/dev/input/event1").2.1 _ (by rfl)⟩

/-! ## `readFile` -/

theorem readFile_whole_file_of_two_or_more (f : FileStream) (h2 : 2 ≤ f.contents.length)
    (hfull : f.contents.length ≤ f.readable) :
    readFile (some f) = .error (.msg "Only read: 1 bytes?") := by
  have hb : fread_bytes f.contents.length 1 f = f.contents.length := by
    unfold fread_bytes
    rw [Nat.mul_one]
    exact Nat.min_eq_left hfull
  have hr : fread f.contents.length 1 f = 1 := by
    unfold fread
    rw [if_neg (by omega), hb]
    exact Nat.div_self (by omega)
  unfold readFile
  simp only [hr]
  rw [if_pos ⟨by omega, by simp⟩]
  rfl

/-- C8 (defect in the code): a two-byte file that opens and is read in full.
The call `fread(result.data(), size, 1, f)` transfers both bytes and returns
the item count 1, the code compares that count with the byte size 2 and
returns the error "Only read: 1 bytes?"; the empty file and the one-byte
file, read the same way, give their contents followed by a NUL. -/
theorem readFile_two_byte_file_is_error :
    fread_bytes 2 1 { contents := [104, 105], readable := 2, stop_is_eof := true } = 2 ∧
    fread 2 1 { contents := [104, 105], readable := 2, stop_is_eof := true } = 1 ∧
    readFile (some { contents := [104, 105], readable := 2, stop_is_eof := true })
      = .error (.msg "Only read: 1 bytes?") ∧
    readFile (some { contents := [], readable := 0, stop_is_eof := true }) = .ok [0] ∧
    readFile (some { contents := [104], readable := 1, stop_is_eof := true })
      = .ok [104, 0] :=
  ⟨by rfl, by rfl, by rfl, by rfl, by rfl⟩

/-! ## `fork_and_exec` -/

theorem fork_and_exec_fst (CW CH : Nat) (forkpty : winsize → Int) (cmd : String)
    (lines cols : Int) :
    (fork_and_exec CW CH forkpty cmd lines cols).1 =
      { ws_row := to_u16 lines, ws_col := to_u16 cols,
        ws_xpixel := to_u16 ((CW : Int) * cols), ws_ypixel := to_u16 ((CH : Int) * lines) } := by
  unfold fork_and_exec
  simp only
  split_ifs <;> rfl

theorem fork_and_exec_snd (CW CH : Nat) (forkpty : winsize → Int) (cmd : String)
    (lines cols : Int) :
    (fork_and_exec CW CH forkpty cmd lines cols).2 =
      if forkpty (fork_and_exec CW CH forkpty cmd lines cols).1 < 0 then .returned false
      else if forkpty (fork_and_exec CW CH forkpty cmd lines cols).1 = 0 then
        .child_exec term_name cmd
      else .returned true := by
  rw [fork_and_exec_fst]
  unfold fork_and_exec
  simp only
  split_ifs <;> rfl

theorem to_u16_eq (x : Int) : to_u16 x = (x % 65536).toNat := rfl

theorem to_u16_lt (x : Int) : to_u16 x < 65536 := by
  unfold to_u16
  omega

theorem to_u16_of_range (x : Int) (h0 : 0 ≤ x) (h1 : x < 65536) : (to_u16 x : Int) = x := by
  unfold to_u16
  omega

theorem to_u16_mul_div (c : Nat) (n : Int) (hn : 1 ≤ n) (hn' : n < 65536)
    (hc : (c : Int) * n < 65536) : to_u16 ((c : Int) * n) / to_u16 n = c := by
  have h0 : (0 : Int) ≤ (c : Int) * n := Int.mul_nonneg (Int.ofNat_nonneg c) (by omega)
  have e1 := to_u16_of_range n (by omega) hn'
  have e2 := to_u16_of_range _ h0 hc
  have hpos : 0 < to_u16 n := by omega
  have hmul : to_u16 ((c : Int) * n) = c * to_u16 n := by
    have : ((to_u16 ((c : Int) * n) : Nat) : Int) = ((c * to_u16 n : Nat) : Int) := by
      rw [e2, Nat.cast_mul, e1]
    exact_mod_cast this
  rw [hmul]
  exact Nat.mul_div_cancel c hpos

/-- C2: `fork_and_exec` builds the window size whose fields are `lines`,
`cols`, `CELL_WIDTH * cols` and `CELL_HEIGHT * lines`, each reduced modulo
65536 (an unsigned 16-bit field), hands exactly that record to `forkpty`, and
ends as the pid returned for that record says (failure, child, parent).  When
`lines` and `cols` are at least 1 and the four values are below 65536, the
fields hold them exactly, `ws_xpixel / ws_col` is `CELL_WIDTH` and
`ws_ypixel / ws_row` is `CELL_HEIGHT`. -/
theorem fork_and_exec_winsize (CW CH : Nat) (forkpty : winsize → Int) (cmd : String)
    (lines cols : Int) :
    (fork_and_exec CW CH forkpty cmd lines cols).1 =
      { ws_row := (lines % 65536).toNat, ws_col := (cols % 65536).toNat,
        ws_xpixel := (((CW : Int) * cols) % 65536).toNat,
        ws_ypixel := (((CH : Int) * lines) % 65536).toNat } ∧
    (fork_and_exec CW CH forkpty cmd lines cols).2 =
      (if forkpty
            { ws_row := (lines % 65536).toNat, ws_col := (cols % 65536).toNat,
              ws_xpixel := (((CW : Int) * cols) % 65536).toNat,
              ws_ypixel := (((CH : Int) * lines) % 65536).toNat } < 0 then
          ForkOutcome.returned false
        else if forkpty
            { ws_row := (lines % 65536).toNat, ws_col := (cols % 65536).toNat,
              ws_xpixel := (((CW : Int) * cols) % 65536).toNat,
              ws_ypixel := (((CH : Int) * lines) % 65536).toNat } = 0 then
          ForkOutcome.child_exec "yaft-256color" cmd
        else ForkOutcome.returned true) ∧
    ((fork_and_exec CW CH forkpty cmd lines cols).1.ws_row < 65536 ∧
      (fork_and_exec CW CH forkpty cmd lines cols).1.ws_col < 65536 ∧
      (fork_and_exec CW CH forkpty cmd lines cols).1.ws_xpixel < 65536 ∧
      (fork_and_exec CW CH forkpty cmd lines cols).1.ws_ypixel < 65536) ∧
    (1 ≤ lines → 1 ≤ cols → lines < 65536 → cols < 65536 →
      (CW : Int) * cols < 65536 → (CH : Int) * lines < 65536 →
      (((fork_and_exec CW CH forkpty cmd lines cols).1.ws_row : Int) = lines ∧
        ((fork_and_exec CW CH forkpty cmd lines cols).1.ws_col : Int) = cols ∧
        ((fork_and_exec CW CH forkpty cmd lines cols).1.ws_xpixel : Int) = CW * cols ∧
        ((fork_and_exec CW CH forkpty cmd lines cols).1.ws_ypixel : Int) = CH * lines) ∧
      (fork_and_exec CW CH forkpty cmd lines cols).1.ws_xpixel /
        (fork_and_exec CW CH forkpty cmd lines cols).1.ws_col = CW ∧
      (fork_and_exec CW CH forkpty cmd lines cols).1.ws_ypixel /
        (fork_and_exec CW CH forkpty cmd lines cols).1.ws_row = CH) := by
  have hfst := fork_and_exec_fst CW CH forkpty cmd lines cols
  have hsnd := fork_and_exec_snd CW CH forkpty cmd lines cols
  rw [hfst] at hsnd
  refine ⟨hfst, hsnd, ?_, ?_⟩
  · rw [hfst]
    exact ⟨to_u16_lt _, to_u16_lt _, to_u16_lt _, to_u16_lt _⟩
  · intro hl hc hl' hc' hx hy
    rw [hfst]
    simp only
    have hx0 : (0 : Int) ≤ (CW : Int) * cols :=
      Int.mul_nonneg (Int.ofNat_nonneg CW) (by omega)
    have hy0 : (0 : Int) ≤ (CH : Int) * lines :=
      Int.mul_nonneg (Int.ofNat_nonneg CH) (by omega)
    exact ⟨⟨to_u16_of_range lines (by omega) hl', to_u16_of_range cols (by omega) hc',
      to_u16_of_range _ hx0 hx, to_u16_of_range _ hy0 hy⟩,
      to_u16_mul_div CW cols hc hc' hx, to_u16_mul_div CH lines hl hl' hy⟩

/-- Witness for C2: a 1404 by 1872 pixel screen with 8 by 16 pixel cells,
117 lines of 175 columns, and a `forkpty` that succeeds as parent only for
that very window size. -/
theorem fork_and_exec_winsize_witness :
    fork_and_exec 8 16 (fun ws => if ws = ⟨117, 175, 1400, 1872⟩ then 4242 else -1)
        "/bin/bash" 117 175
      = (⟨117, 175, 1400, 1872⟩, ForkOutcome.returned true) ∧
    (fork_and_exec 8 16 (fun ws => if ws = ⟨117, 175, 1400, 1872⟩ then 4242 else -1)
        "/bin/bash" 117 175).1.ws_xpixel /
      (fork_and_exec 8 16 (fun ws => if ws = ⟨117, 175, 1400, 1872⟩ then 4242 else -1)
        "/bin/bash" 117 175).1.ws_col = 8 ∧
    (fork_and_exec 8 16 (fun ws => if ws = ⟨117, 175, 1400, 1872⟩ then 4242 else -1)
        "/bin/bash" 117 175).1.ws_ypixel /
      (fork_and_exec 8 16 (fun ws => if ws = ⟨117, 175, 1400, 1872⟩ then 4242 else -1)
        "/bin/bash" 117 175).1.ws_row = 16 ∧
    (fork_and_exec 8 16 (fun _ => 0) "/bin/bash" 70000 175).1.ws_row = 4464 :=
  have h := fork_and_exec_winsize 8 16
    (fun ws => if ws = ⟨117, 175, 1400, 1872⟩ then 4242 else -1) "/bin/bash" 117 175
  have hc := h.2.2.2 (by decide) (by decide) (by decide) (by decide) (by decide) (by decide)
  ⟨Prod.ext (h.1.trans (by decide)) (h.2.1.trans (by decide)), hc.2.1, hc.2.2,
    (congrArg winsize.ws_row (fork_and_exec_winsize 8 16 (fun _ => 0) "/bin/bash" 70000 175).1).trans
      (by decide)⟩

/-! ## The pty callback -/

theorem to_size_t_ne_buf_size (w : Nat) (size : Int) (hw : 11 ≤ w) (hlo : -1 ≤ size)
    (hhi : size ≤ 512) : to_size_t w size ≠ buf_size ↔ size ≠ 512 := by
  have hp : (2048 : Int) ≤ 2 ^ w := by
    have h : (2 : Int) ^ 11 ≤ 2 ^ w := pow_le_pow_right₀ (by norm_num) hw
    norm_num at h
    exact h
  unfold to_size_t buf_size
  generalize (2 : Int) ^ w = P at hp
  rcases Int.lt_or_le size 0 with hneg | hpos
  · have hs : size = -1 := by omega
    subst hs
    have hm : (-1 : Int) % P = P - 1 := by
      have h1 : (-1 : Int) = (P - 1) + (-1) * P := by ring
      rw [h1, Int.add_mul_emod_self, Int.emod_eq_of_lt (by omega) (by omega)]
    rw [hm]
    constructor
    · intro _; omega
    · intro _; omega
  · rw [Int.emod_eq_of_lt hpos (by omega)]
    omega

/-- C1: for every `size` that `read` can return on the 512-byte buffer
(from -1 to 512), the pty callback calls `parse` exactly once, with the
terminal of the state, the buffer and that `size`; the call is made inside
`setState`, which then requests a redraw, exactly when `size` converted to
`size_t` differs from 512, which is exactly when `size` is not 512; a read of
exactly 512 bytes is parsed without a redraw request. -/
theorem pty_readable_parse_once {Terminal : Type} (w : Nat) (self : YaftState Terminal)
    (buf : List Nat) (size : Int) (hw : 11 ≤ w) (hlo : -1 ≤ size) (hhi : size ≤ 512) :
    (pty_readable w self buf size).filter HostCall.is_parse
      = [HostCall.parse self.term buf size] ∧
    (to_size_t w size ≠ buf_size ↔ size ≠ 512) ∧
    (size ≠ 512 → pty_readable w self buf size
      = setState self (fun s => [HostCall.parse s.term buf size])) ∧
    (size = 512 → pty_readable w self buf size = [HostCall.parse self.term buf size]) ∧
    (HostCall.redraw ∈ pty_readable w self buf size ↔ size ≠ 512) := by
  have hiff := to_size_t_ne_buf_size w size hw hlo hhi
  by_cases hs : size = 512
  · have hc : ¬ to_size_t w size ≠ buf_size := fun h => hiff.mp h hs
    have hr : pty_readable w self buf size = [HostCall.parse self.term buf size] := by
      unfold pty_readable
      rw [if_neg hc]
    rw [hr]
    refine ⟨rfl, hiff, fun h => absurd hs h, fun _ => rfl, ?_⟩
    constructor
    · intro h
      simp at h
    · intro h
      exact absurd hs h
  · have hc : to_size_t w size ≠ buf_size := hiff.mpr hs
    have hr : pty_readable w self buf size
        = setState self (fun s => [HostCall.parse s.term buf size]) := by
      unfold pty_readable
      rw [if_pos hc]
    rw [hr]
    refine ⟨rfl, hiff, fun _ => rfl, fun h => absurd h hs, ?_⟩
    constructor
    · intro _
      exact hs
    · intro _
      simp [setState]

/-- Witness for C1 on a 32-bit target: a failed read (-1) is parsed and
followed by a redraw request, a read of exactly 512 bytes is parsed only. -/
theorem pty_readable_parse_once_witness :
    pty_readable 32 (YaftState.mk ()) [] (-1)
      = [HostCall.parse () [] (-1), HostCall.redraw] ∧
    pty_readable 32 (YaftState.mk ()) (List.replicate 512 65) 512
      = [HostCall.parse () (List.replicate 512 65) 512] :=
  ⟨(pty_readable_parse_once 32 (YaftState.mk ()) [] (-1) (by decide) (by decide)
      (by decide)).2.2.1 (by decide),
    (pty_readable_parse_once 32 (YaftState.mk ()) (List.replicate 512 65) 512 (by decide)
      (by decide) (by decide)).2.2.2.1 rfl⟩

end Yaft
